import Mathlib

/-!
Verification of the franklin-server request pipeline (src/web.py, src/util.py).

The embedding models Python dictionaries as association lists, JSON values
(as stored in host configs) as an inductive `JVal`, header maps as
`List (String × String)`, and the effectful handlers as pure functions that
take the network responses as oracle arguments and return the response
together with the list of storage fetches issued and the cache update
performed.  Machine-level pieces (UTF-8 percent-encoding, HMAC-SHA1,
base64) are implemented over `Nat` bytes, faithful to the Python libraries
the source calls (`urllib.parse.quote`, `hmac`/`sha1`, `base64.b64encode`).
-/

namespace Franklin

/-- JSON-like values as they appear in host-config dictionaries
(`web.py` round-trips configs through `json.dumps` / `json.loads`). -/
inductive JVal where
  | null : JVal
  | bool (b : Bool) : JVal
  | str (s : String) : JVal
  | num (n : Int) : JVal
deriving DecidableEq, Repr

/-- Python truthiness of a JSON value (`if not host_config['path']`,
`if try_custom_404`). -/
def JVal.truthy : JVal → Bool
  | .null => false
  | .bool b => b
  | .str s => s != ""
  | .num n => n != 0

/-- Python `str()` of a JSON value, as used by `'{}'.format(value)`. -/
def JVal.format : JVal → String
  | .null => "None"
  | .bool b => if b then "True" else "False"
  | .str s => s
  | .num n => toString n

/-- Dictionary lookup, `d.get(key)` / `d[key]` support: first binding wins
(our `dset` keeps keys unique, mirroring Python dict semantics). -/
def dget {α : Type} : List (String × α) → String → Option α
  | [], _ => none
  | (k, v) :: rest, key => if k = key then some v else dget rest key

/-- Dictionary store `d[key] = v`: replace the existing binding in place,
else append (Python dicts keep insertion order). -/
def dset {α : Type} : List (String × α) → String → α → List (String × α)
  | [], key, v => [(key, v)]
  | (k, w) :: rest, key, v =>
      if k = key then (k, v) :: rest else (k, w) :: dset rest key v

/-- Dictionary merge `d.update(upd)`: set every binding of `upd` in `d`,
in order. -/
def dupdate {α : Type} (d upd : List (String × α)) : List (String × α) :=
  upd.foldl (fun acc kv => dset acc kv.1 kv.2) d

/-- A host configuration: the JSON object stored per hostname. -/
abbrev HostConfig := List (String × JVal)

/-- An HTTP header map (modelled with verbatim keys). -/
abbrev Headers := List (String × String)

/-! ## util.py -/

/-- `A_YEAR = 60 * 60 * 24 * 365` (util.py line 5). -/
def A_YEAR : Nat := 60 * 60 * 24 * 365

/-- The fixed content-type → max-age table `CACHE_MAX_AGES`
(util.py lines 7-29). -/
def CACHE_MAX_AGES : List (String × Nat) :=
  [ ("application/atom+xml", A_YEAR),
    ("application/javascript", A_YEAR),
    ("application/rss+xml", A_YEAR),
    ("application/vnd.ms-fontobject", A_YEAR),
    ("application/x-font-ttf", A_YEAR),
    ("application/x-font-otf", A_YEAR),
    ("application/x-font-woff", A_YEAR),
    ("application/xml", A_YEAR),
    ("audio/mpeg", A_YEAR),
    ("audio/webm", A_YEAR),
    ("image/gif", A_YEAR),
    ("image/jpeg", A_YEAR),
    ("image/pjpeg", A_YEAR),
    ("image/png", A_YEAR),
    ("image/svg+xml", A_YEAR),
    ("image/x-icon", A_YEAR),
    ("text/cache-manifest", A_YEAR),
    ("text/css", A_YEAR),
    ("text/html", 60 * 5),
    ("video/mp4", A_YEAR),
    ("video/webm", A_YEAR) ]

/-- One step of `filter_headers`: look the field up in `headers` and keep
it only when its value is truthy (util.py lines 38-41). -/
def filterStep (headers : Headers) (filtered : Headers) (field : String) :
    Headers :=
  match dget headers field with
  | some value => if value != "" then dset filtered field value else filtered
  | none => filtered

/-- `filter_headers(headers, fields)` (util.py lines 34-42): keep only the
headers listed in `fields` that also have a truthy value. -/
def filter_headers (headers : Headers) (fields : List String) : Headers :=
  fields.foldl (filterStep headers) []

/-- The outbound `Cache-Control` computation of web.py lines 248-250:
`max_age = CACHE_MAX_AGES.get(content_type)` then
`'max-age=...'` if `max_age` is truthy else `'no-cache'`. -/
def cache_control_header (contentType : String) : String :=
  match dget CACHE_MAX_AGES contentType with
  | some maxAge => if maxAge != 0 then "max-age=" ++ toString maxAge
                   else "no-cache"
  | none => "no-cache"

/-! ## Percent-encoding and path normalization (web.py lines 227-232) -/

/-- Uppercase hexadecimal digit, as produced by Python percent-encoding. -/
def hexDigit (n : Nat) : Char :=
  if n < 10 then Char.ofNat (48 + n) else Char.ofNat (55 + n)

/-- Bytes left unescaped by `urllib.parse.quote` with its default safe
set: ASCII letters, digits, underscore, period, hyphen, tilde and the
slash. -/
def quoteSafeByte (b : Nat) : Bool :=
  (65 ≤ b && b ≤ 90) || (97 ≤ b && b ≤ 122) || (48 ≤ b && b ≤ 57) ||
    b == 95 || b == 46 || b == 45 || b == 126 || b == 47

/-- Percent-encoding of one byte: kept verbatim when safe, otherwise a
percent sign followed by two uppercase hex digits. -/
def quoteByte (b : Nat) : List Char :=
  if quoteSafeByte b then [Char.ofNat b]
  else ['%', hexDigit (b / 16), hexDigit (b % 16)]

/-- UTF-8 encoding of one character (Python `str.encode('utf-8')`),
as byte values. -/
def utf8Char (c : Char) : List Nat :=
  let n := c.toNat
  if n < 128 then [n]
  else if n < 2048 then [192 + n / 64, 128 + n % 64]
  else if n < 65536 then
    [224 + n / 4096, 128 + n / 64 % 64, 128 + n % 64]
  else
    [240 + n / 262144, 128 + n / 4096 % 64, 128 + n / 64 % 64, 128 + n % 64]

/-- UTF-8 byte sequence of a string. -/
def utf8 (s : String) : List Nat := (s.data.map utf8Char).flatten

/-- `urllib.parse.quote(s)` (web.py line 230): percent-encode the UTF-8
bytes of `s`, keeping the slash and unreserved characters. -/
def quote (s : String) : String :=
  String.mk (((utf8 s).map quoteByte).flatten)

/-- Python `s.lstrip('/')`: drop every leading slash. -/
def lstripSlash (s : String) : String :=
  String.mk (s.data.dropWhile (fun c => c == '/'))

/-- Python `s.endswith('/')`. -/
def endsWithSlash (s : String) : Bool :=
  s.data.getLast? == some '/'

/-- The resource-path normalization of web.py lines 228-230: empty or
trailing-slash paths get `index.html` appended, then the path is
percent-encoded with `quote`. -/
def normalize_resource_path (p : String) : String :=
  if p == "" || endsWithSlash p then quote (p ++ "index.html") else quote p

/-- The object-key construction of web.py line 232:
`'{}/{}'.format(host_config['path'], resource_path.lstrip('/'))`, applied
to the already-normalized resource path. -/
def object_key (configPath normalizedPath : String) : String :=
  configPath ++ "/" ++ lstripSlash normalizedPath

/-! ## The signer (web.py lines 114-134)

`generate_signature` calls Python's `hmac` with the SHA-1 digest and
`base64.b64encode`; the three are implemented here over `Nat` byte
lists. -/

/-- Truncation to a 32-bit word. -/
def w32 (n : Nat) : Nat := n % 4294967296

/-- Left rotation of a 32-bit word. -/
def rotl32 (x s : Nat) : Nat :=
  (x <<< s ||| x >>> (32 - s)) % 4294967296

/-- Big-endian bytes of a 32-bit word. -/
def be32 (n : Nat) : List Nat :=
  [n / 16777216 % 256, n / 65536 % 256, n / 256 % 256, n % 256]

/-- Big-endian bytes of the 64-bit SHA-1 length field. -/
def be64 (n : Nat) : List Nat :=
  [n / 2 ^ 56 % 256, n / 2 ^ 48 % 256, n / 2 ^ 40 % 256, n / 2 ^ 32 % 256,
   n / 2 ^ 24 % 256, n / 2 ^ 16 % 256, n / 2 ^ 8 % 256, n % 256]

/-- SHA-1 message padding: a 0x80 byte, zeros up to 56 modulo 64, then
the message bit length big-endian in eight bytes. -/
def sha1Pad (msg : List Nat) : List Nat :=
  msg ++ [128] ++ List.replicate ((119 - msg.length % 64) % 64) 0 ++
    be64 (8 * msg.length)

/-- The sixteen big-endian 32-bit words of a 64-byte chunk. -/
def beWords : List Nat → List Nat
  | a :: b :: c :: d :: rest =>
      (a * 16777216 + b * 65536 + c * 256 + d) :: beWords rest
  | _ => []

/-- Extend the sixteen schedule words of a chunk to eighty. -/
def sha1Schedule (ws : List Nat) : List Nat :=
  (List.range 64).foldl
    (fun ws _ =>
      let n := ws.length
      ws ++ [rotl32 (ws.getD (n - 3) 0 ^^^ ws.getD (n - 8) 0 ^^^
                     ws.getD (n - 14) 0 ^^^ ws.getD (n - 16) 0) 1])
    ws

/-- The SHA-1 round function. -/
def sha1F (i b c d : Nat) : Nat :=
  if i < 20 then (b &&& c) ||| ((b ^^^ 4294967295) &&& d)
  else if i < 40 then b ^^^ c ^^^ d
  else if i < 60 then (b &&& c) ||| (b &&& d) ||| (c &&& d)
  else b ^^^ c ^^^ d

/-- The SHA-1 round constants. -/
def sha1K (i : Nat) : Nat :=
  if i < 20 then 1518500249
  else if i < 40 then 1859775393
  else if i < 60 then 2400959708
  else 3395469782

/-- One SHA-1 compression step over a 64-byte chunk. -/
def sha1Compress (h : Nat × Nat × Nat × Nat × Nat) (chunk : List Nat) :
    Nat × Nat × Nat × Nat × Nat :=
  let ws := sha1Schedule (beWords chunk)
  let (h0, h1, h2, h3, h4) := h
  let st :=
    (List.range 80).foldl
      (fun st i =>
        let (a, b, c, d, e) := st
        let temp :=
          w32 (rotl32 a 5 + sha1F i b c d + e + sha1K i + ws.getD i 0)
        (temp, a, rotl32 b 30, c, d))
      (h0, h1, h2, h3, h4)
  let (a, b, c, d, e) := st
  (w32 (h0 + a), w32 (h1 + b), w32 (h2 + c), w32 (h3 + d), w32 (h4 + e))

/-- Fold the compression over `n` consecutive 64-byte chunks of the
padded input (the padded length is always a multiple of 64). -/
def sha1Chunks : Nat → (Nat × Nat × Nat × Nat × Nat) → List Nat →
    Nat × Nat × Nat × Nat × Nat
  | 0, h, _ => h
  | n + 1, h, bytes =>
      sha1Chunks n (sha1Compress h (bytes.take 64)) (bytes.drop 64)

/-- SHA-1 of a byte list, as the 20-byte digest. -/
def sha1 (msg : List Nat) : List Nat :=
  let padded := sha1Pad msg
  let r :=
    sha1Chunks (padded.length / 64)
      (1732584193, 4023233417, 2562383102, 271733878, 3285377520) padded
  let (h0, h1, h2, h3, h4) := r
  be32 h0 ++ be32 h1 ++ be32 h2 ++ be32 h3 ++ be32 h4

/-- RFC 2104 HMAC with the SHA-1 digest over byte lists
(`hmac.new(key, msg=msg, digestmod='sha1')`, web.py line 131). -/
def hmacSha1 (key msg : List Nat) : List Nat :=
  let key := if 64 < key.length then sha1 key else key
  let key := key ++ List.replicate (64 - key.length) 0
  let opad := key.map (fun b => b ^^^ 92)
  let ipad := key.map (fun b => b ^^^ 54)
  sha1 (opad ++ sha1 (ipad ++ msg))

/-- The base64 alphabet. -/
def b64Alphabet : List Char :=
  "ABCDEFGHIJKLMNOPQRSTUVWXYZabcdefghijklmnopqrstuvwxyz0123456789+/".data

/-- Character of one 6-bit group. -/
def b64Char (n : Nat) : Char := b64Alphabet.getD n '='

/-- `base64.b64encode` over byte lists (web.py line 132). -/
def b64encode : List Nat → String
  | [] => ""
  | [a] => String.mk [b64Char (a / 4), b64Char (a % 4 * 16), '=', '=']
  | [a, b] =>
      String.mk [b64Char (a / 4), b64Char (a % 4 * 16 + b / 16),
                 b64Char (b % 16 * 4), '=']
  | a :: b :: c :: rest =>
      String.mk [b64Char (a / 4), b64Char (a % 4 * 16 + b / 16),
                 b64Char (b % 16 * 4 + c / 64), b64Char (c % 64)] ++
        b64encode rest

/-- The canonical string built by `generate_signature` (web.py lines
119-126): the template `'{method}\n\n\n\nx-amz-date:{amz_date}\n{path}'`
instantiated with `path = '/{}/{}'.format(bucket, path.lstrip('/'))`. -/
def to_sign_string (bucket path amzDate method : String) : String :=
  method ++ "\n\n\n\nx-amz-date:" ++ amzDate ++ "\n" ++
    ("/" ++ bucket ++ "/" ++ lstripSlash path)

/-- `generate_signature(bucket, path, amz_date, method)` (web.py lines
114-134): HMAC-SHA1 the canonical string under the `AWS_SECRET` setting
(passed here as `awsSecret`) and base64-encode the digest. -/
def generate_signature (awsSecret bucket path amzDate method : String) :
    String :=
  b64encode (hmacSha1 (utf8 awsSecret)
    (utf8 (to_sign_string bucket path amzDate method)))

/-- The canonical string exactly as the spec words it:
`METHOD\n\n\n\nx-amz-date:TIMESTAMP\n/BUCKET/OBJECTKEY` with the object
key stripped of leading slashes and the Content-MD5, Content-Type and
query lines left empty. -/
def specCanonicalString (bucket objectKey method timestamp : String) :
    String :=
  method ++ "\n\n\n\n" ++ "x-amz-date:" ++ timestamp ++ "\n" ++ "/" ++
    bucket ++ "/" ++ lstripSlash objectKey

/-! ## The host-config cache (web.py lines 32, 65-111) -/

/-- `HOST_CACHE_TTL` (web.py line 32): seconds a host config stays
cached; the deployment default of 120 seconds is used throughout. -/
def HOST_CACHE_TTL : Nat := 120

/-- The redis backing store: hostname → (stored config, expiry instant).
The JSON round-trip (`json.dumps` on write, `json.loads` on read) is
modelled as the identity on the stored object. -/
abbrev Cache := List (String × (HostConfig × Nat))

/-- Modelled from the spec: the redis key/value store with native expiry
(`redis_conn.get` / `redis_conn.set(..., expire=ttl)`) is an external
collaborator, not code under src/.  Per its TTL contract a key written
at time `T` with TTL `ttl` is readable at `now` exactly when
`now < T + ttl`; absent or expired keys read as nothing. -/
def redisGet (cache : Cache) (hostname : String) (now : Nat) :
    Option HostConfig :=
  match dget cache hostname with
  | some (cfg, expiry) => if now < expiry then some cfg else none
  | none => none

/-- `redis_conn.set(hostname, data, expire=ttl)` issued at time `now`. -/
def redisSet (cache : Cache) (hostname : String) (cfg : HostConfig)
    (ttl now : Nat) : Cache :=
  dset cache hostname (cfg, now + ttl)

/-- The Franklin API as an oracle: the status and JSON body it answers
to `GET /v1/domains/?domain=hostname`. -/
structure ApiResponse where
  status : Nat
  data : HostConfig
deriving DecidableEq, Repr

/-- The sentinel base config of `resolve_host_config`
(web.py lines 83-86). -/
def baseConfig : HostConfig :=
  [("path", JVal.null), ("custom_404", JVal.bool true)]

/-- The outcome of one `resolve_host_config` call: the config, the
updated store, and whether the Franklin API was called. -/
structure ResolveResult where
  config : HostConfig
  cache : Cache
  apiCalled : Bool
deriving DecidableEq, Repr

/-- `resolve_host_config(app, hostname)` (web.py lines 65-104) at time
`now`, the Franklin API's answer given by the oracle `api`: on a cache
hit return the stored config as-is; on a miss start from the sentinel
config, merge in the API's JSON body only when its status is 200, store
the result for `HOST_CACHE_TTL` seconds, and return it. -/
def resolve_host_config (api : String → ApiResponse) (cache : Cache)
    (hostname : String) (now : Nat) : ResolveResult :=
  match redisGet cache hostname now with
  | some cfg => ⟨cfg, cache, false⟩
  | none =>
      let resp := api hostname
      let cfg := if resp.status == 200 then dupdate baseConfig resp.data
                 else baseConfig
      ⟨cfg, redisSet cache hostname cfg HOST_CACHE_TTL now, true⟩

/-- `update_host_config(app, hostname, config, ttl)` (web.py lines
107-111) issued at time `now`. -/
def update_host_config (cache : Cache) (hostname : String)
    (cfg : HostConfig) (ttl now : Nat) : Cache :=
  redisSet cache hostname cfg ttl now

/-! ## Storage fetches and the handlers (web.py lines 137-254) -/

/-- The dict a storage fetch produces (web.py lines 159-163): response
status, headers and raw body. -/
structure S3Resource where
  status : Nat
  headers : Headers
  data : String
deriving DecidableEq, Repr

/-- The storage origin as an oracle: the response to a GET for an object
URL path with given request headers. -/
abbrev S3Oracle := String → Headers → S3Resource

/-- The record of one storage fetch: the object path handed to
`fetch_s3` and the headers sent with the request. -/
structure FetchCall where
  path : String
  headers : Headers
deriving DecidableEq, Repr

/-- `DEFAULT_RESPONSE_HEADERS` (web.py lines 37-39). -/
def DEFAULT_RESPONSE_HEADERS : Headers :=
  [("Server", "franklin-server/2.0.0")]

/-- `PROXY_REQUEST_HEADERS` (web.py line 35). -/
def PROXY_REQUEST_HEADERS : List String :=
  ["Cache-Control", "If-Modified-Since", "If-None-Match"]

/-- `PROXY_RESPONSE_HEADERS` (web.py line 36). -/
def PROXY_RESPONSE_HEADERS : List String :=
  ["Content-Length", "Last-Modified", "ETag"]

/-- An outbound `aiohttp.web.Response` as the handlers build it: status,
the `content_type` argument, the headers dict passed, and the body. -/
structure HttpResponse where
  status : Nat
  contentType : String
  headers : Headers
  body : String
deriving DecidableEq, Repr

/-- A Python exception escaping a handler. -/
inductive PyError where
  | keyError (key : String) : PyError
deriving DecidableEq, Repr

/-- `fetch_s3(bucket, path, headers=headers, signed=signed)` (web.py
lines 137-165), the wall clock's formatted timestamp as `nowStr` and the
origin as `oracle`: build the object URL from the path with leading
slashes stripped, set the virtual-hosted Host header, attach the AWS
Authorization and x-amz-date headers when signing, and issue the
request.  Returns the resource together with the call record. -/
def fetch_s3 (oracle : S3Oracle) (awsKey awsSecret bucket path : String)
    (headers : Headers) (signed : Bool) (nowStr : String) :
    S3Resource × FetchCall :=
  let urlPath := lstripSlash path
  let headers := dset headers "Host" (bucket ++ ".s3.amazonaws.com")
  let headers :=
    if signed then
      dupdate headers
        [("Authorization",
          "AWS " ++ awsKey ++ ":" ++
            generate_signature awsSecret bucket path nowStr "GET"),
         ("x-amz-date", nowStr)]
    else headers
  (oracle urlPath headers, ⟨path, headers⟩)

/-- `host_config.get('custom_404', True)` as used by the `if` on web.py
lines 176-178: the stored value's truthiness, true when absent. -/
def tryCustom404 (cfg : HostConfig) : Bool :=
  match dget cfg "custom_404" with
  | some v => v.truthy
  | none => true

/-- The outcome of `handle_404`: the response, the possibly-mutated
config, and the storage fetches issued. -/
structure NotFoundResult where
  response : HttpResponse
  config : HostConfig
  fetches : List FetchCall
deriving DecidableEq, Repr

/-- `handle_404(host_config)` (web.py lines 168-203), with the default
404 template text as `defaultPage` (templates/404-file_not_found.html is
not under src/): when `custom_404` (default true) is truthy, probe
`<path>/404.html` in storage; on a 200 return its body as the 404
response and record `custom_404 = true`, otherwise record
`custom_404 = false` and fall through to the fixed default page.
Indexing `host_config['path']` raises a KeyError when the key is
absent. -/
def handle_404 (oracle : S3Oracle) (awsKey awsSecret bucket : String)
    (nowStr defaultPage : String) (host_config : HostConfig) :
    Except PyError NotFoundResult :=
  if tryCustom404 host_config then
    match dget host_config "path" with
    | none => .error (.keyError "path")
    | some pathVal =>
        let path := pathVal.format ++ "/404.html"
        let fr := fetch_s3 oracle awsKey awsSecret bucket path [] true nowStr
        let hasCustom := fr.1.status == 200
        let cfg := dset host_config "custom_404" (JVal.bool hasCustom)
        if hasCustom then
          .ok ⟨⟨404, "text/html", DEFAULT_RESPONSE_HEADERS, fr.1.data⟩,
               cfg, [fr.2]⟩
        else
          .ok ⟨⟨404, "text/html", DEFAULT_RESPONSE_HEADERS, defaultPage⟩,
               cfg, [fr.2]⟩
  else
    .ok ⟨⟨404, "text/html", DEFAULT_RESPONSE_HEADERS, defaultPage⟩,
         host_config, []⟩

/-- The outcome of `request_handler`: the response (or the Python
exception that escaped), the storage fetches issued, and the cache
update performed through `update_host_config`. -/
structure HandlerResult where
  response : Except PyError HttpResponse
  fetches : List FetchCall
  cacheUpdate : Option (String × HostConfig)
deriving Repr

/-- `request_handler(request)` (web.py lines 206-254) after host
resolution: `host_config` is the config resolved for `hostname`,
`resource_path` the matched route tail, `reqHeaders` the inbound request
headers; the two fixed template bodies are parameters (the template
files are not under src/), the storage origin is `oracle` and the
formatted wall clock `nowStr`.  An empty or falsy config path yields the
fixed host-not-found 404 before any storage fetch; otherwise the
normalized object is fetched signed, a 304 passes through, any other
non-200 delegates to `handle_404` and persists the config, and a 200
composes the filtered headers, `Cache-Control` and body — indexing the
storage response's Content-Type header and raising a KeyError when it
is absent. -/
def request_handler (oracle : S3Oracle) (awsKey awsSecret bucket : String)
    (nowStr hostNotFoundPage fileNotFoundPage : String) (hostname : String)
    (host_config : HostConfig) (resource_path : String)
    (reqHeaders : Headers) : HandlerResult :=
  match dget host_config "path" with
  | none => ⟨.error (.keyError "path"), [], none⟩
  | some pathVal =>
      if !pathVal.truthy then
        ⟨.ok ⟨404, "text/html", DEFAULT_RESPONSE_HEADERS, hostNotFoundPage⟩,
         [], none⟩
      else
        let rp := normalize_resource_path resource_path
        let path := pathVal.format ++ "/" ++ lstripSlash rp
        let requestHeaders := filter_headers reqHeaders PROXY_REQUEST_HEADERS
        let fr :=
          fetch_s3 oracle awsKey awsSecret bucket path requestHeaders true
            nowStr
        if fr.1.status == 304 then
          ⟨.ok ⟨304, "", DEFAULT_RESPONSE_HEADERS, ""⟩, [fr.2], none⟩
        else if fr.1.status != 200 then
          match handle_404 oracle awsKey awsSecret bucket nowStr
              fileNotFoundPage host_config with
          | .error e => ⟨.error e, [fr.2], none⟩
          | .ok nf =>
              ⟨.ok nf.response, fr.2 :: nf.fetches, some (hostname, nf.config)⟩
        else
          let responseHeaders :=
            dupdate (filter_headers fr.1.headers PROXY_RESPONSE_HEADERS)
              DEFAULT_RESPONSE_HEADERS
          match dget fr.1.headers "Content-Type" with
          | none => ⟨.error (.keyError "Content-Type"), [fr.2], none⟩
          | some ct =>
              ⟨.ok ⟨200, ct,
                    dset responseHeaders "Cache-Control"
                      (cache_control_header ct),
                    fr.1.data⟩,
               [fr.2], none⟩

/-! ## Dictionary lemmas -/

theorem dget_dset_self {α : Type} (d : List (String × α)) (k : String)
    (v : α) : dget (dset d k v) k = some v := by
  induction d with
  | nil => simp [dset, dget]
  | cons hd tl ih =>
      obtain ⟨k2, w⟩ := hd
      by_cases h : k2 = k
      · simp [dset, h, dget]
      · simp [dset, h, dget, ih]

theorem dget_dset_of_ne {α : Type} (d : List (String × α)) (k k2 : String)
    (v : α) (h : k ≠ k2) : dget (dset d k v) k2 = dget d k2 := by
  induction d with
  | nil => simp [dset, dget, h]
  | cons hd tl ih =>
      obtain ⟨k3, w⟩ := hd
      by_cases h3 : k3 = k
      · subst h3
        simp [dset, dget, h]
      · simp [dset, h3, dget, ih]

theorem dget_dset_isSome {α : Type} (d : List (String × α))
    (k k2 : String) (v : α) (h : (dget d k2).isSome) :
    (dget (dset d k v) k2).isSome := by
  by_cases hk : k = k2
  · subst hk
    simp [dget_dset_self]
  · rwa [dget_dset_of_ne d k k2 v hk]

theorem dget_dupdate_isSome {α : Type} (d u : List (String × α))
    (k : String) (h : (dget d k).isSome) :
    (dget (dupdate d u) k).isSome := by
  induction u generalizing d with
  | nil => simpa [dupdate] using h
  | cons hd tl ih =>
      show (dget (dupdate (dset d hd.1 hd.2) tl) k).isSome
      exact ih _ (dget_dset_isSome d hd.1 k hd.2 h)

theorem dget_mem {α : Type} (d : List (String × α)) (k : String) (v : α)
    (h : dget d k = some v) : (k, v) ∈ d := by
  induction d with
  | nil => simp [dget] at h
  | cons hd tl ih =>
      obtain ⟨k2, w⟩ := hd
      by_cases h2 : k2 = k
      · subst h2
        simp [dget] at h
        simp [h]
      · simp [dget, h2] at h
        exact List.mem_cons_of_mem _ (ih h)

/-! ## filter_headers (claim C10 support) -/

theorem filterStep_of_none (h acc : Headers) (g : String)
    (hw : dget h g = none) : filterStep h acc g = acc := by
  simp [filterStep, hw]

theorem filterStep_of_empty (h acc : Headers) (g : String)
    (hw : dget h g = some "") : filterStep h acc g = acc := by
  simp [filterStep, hw]

theorem filterStep_of_some (h acc : Headers) (g w : String)
    (hw : dget h g = some w) (hne : w ≠ "") :
    filterStep h acc g = dset acc g w := by
  simp [filterStep, hw, hne]

theorem filterStep_consistent (h acc : Headers) (g : String)
    (hacc : ∀ f v, dget acc f = some v → dget h f = some v ∧ v ≠ "") :
    ∀ f v, dget (filterStep h acc g) f = some v →
      dget h f = some v ∧ v ≠ "" := by
  intro f v hf
  cases hw : dget h g with
  | none =>
      rw [filterStep_of_none h acc g hw] at hf
      exact hacc f v hf
  | some w =>
      by_cases hwe : w = ""
      · subst hwe
        rw [filterStep_of_empty h acc g hw] at hf
        exact hacc f v hf
      · rw [filterStep_of_some h acc g w hw hwe] at hf
        by_cases hfg : g = f
        · subst hfg
          rw [dget_dset_self] at hf
          cases hf
          exact ⟨hw, hwe⟩
        · rw [dget_dset_of_ne acc g f w hfg] at hf
          exact hacc f v hf

theorem dget_filter_foldl (h : Headers) (fs : List String) (acc : Headers)
    (hacc : ∀ f v, dget acc f = some v → dget h f = some v ∧ v ≠ "")
    (f : String) (v : String) :
    dget (fs.foldl (filterStep h) acc) f = some v ↔
      (f ∈ fs ∧ dget h f = some v ∧ v ≠ "") ∨ dget acc f = some v := by
  induction fs generalizing acc with
  | nil => simp
  | cons g rest ih =>
      rw [List.foldl_cons,
        ih (filterStep h acc g) (filterStep_consistent h acc g hacc)]
      constructor
      · rintro (⟨hmem, hC⟩ | hstep)
        · exact Or.inl ⟨List.mem_cons_of_mem g hmem, hC⟩
        · cases hw : dget h g with
          | none =>
              rw [filterStep_of_none h acc g hw] at hstep
              exact Or.inr hstep
          | some w =>
              by_cases hwe : w = ""
              · subst hwe
                rw [filterStep_of_empty h acc g hw] at hstep
                exact Or.inr hstep
              · rw [filterStep_of_some h acc g w hw hwe] at hstep
                by_cases hfg : g = f
                · subst hfg
                  rw [dget_dset_self] at hstep
                  cases hstep
                  exact Or.inl ⟨List.mem_cons_self g rest, hw, hwe⟩
                · rw [dget_dset_of_ne acc g f w hfg] at hstep
                  exact Or.inr hstep
      · rintro (⟨hmem, hC⟩ | hacc2)
        · rcases List.mem_cons.mp hmem with hfg | hmem2
          · subst hfg
            refine Or.inr ?_
            rw [filterStep_of_some h acc f v hC.1 hC.2]
            exact dget_dset_self acc f v
          · exact Or.inl ⟨hmem2, hC⟩
        · refine Or.inr ?_
          cases hw : dget h g with
          | none => rw [filterStep_of_none h acc g hw]; exact hacc2
          | some w =>
              by_cases hwe : w = ""
              · subst hwe
                rw [filterStep_of_empty h acc g hw]
                exact hacc2
              · rw [filterStep_of_some h acc g w hw hwe]
                by_cases hfg : g = f
                · subst hfg
                  rw [dget_dset_self]
                  have hcv := (hacc g v hacc2).1
                  rw [hw] at hcv
                  exact hcv
                · rw [dget_dset_of_ne acc g f w hfg]
                  exact hacc2

/-- C10: `filter_headers` returns exactly the allow-listed pairs whose
value in the header map is truthy: a lookup in the output succeeds with
value `v` precisely when the field is listed, maps to `v` in the input,
and `v` is non-empty; fields outside the list never appear, and a listed
field bound to the empty string is dropped. -/
theorem filter_headers_spec :
    (∀ (headers : Headers) (fields : List String) (f v : String),
      dget (filter_headers headers fields) f = some v ↔
        f ∈ fields ∧ dget headers f = some v ∧ v ≠ "") ∧
    (∀ (headers : Headers) (fields : List String) (f : String),
      f ∉ fields → dget (filter_headers headers fields) f = none) ∧
    (∀ (headers : Headers) (fields : List String) (f : String),
      dget headers f = some "" →
      dget (filter_headers headers fields) f = none) := by
  have key : ∀ (headers : Headers) (fields : List String) (f v : String),
      dget (filter_headers headers fields) f = some v ↔
        f ∈ fields ∧ dget headers f = some v ∧ v ≠ "" := by
    intro headers fields f v
    unfold filter_headers
    rw [dget_filter_foldl headers fields [] (by intro f v h; simp [dget] at h)]
    simp [dget]
  refine ⟨key, ?_, ?_⟩
  · intro headers fields f hf
    cases hd : dget (filter_headers headers fields) f with
    | none => rfl
    | some v =>
        exact absurd ((key headers fields f v).mp hd).1 hf
  · intro headers fields f hf
    cases hd : dget (filter_headers headers fields) f with
    | none => rfl
    | some v =>
        have := (key headers fields f v).mp hd
        rw [hf] at this
        cases this.2.1
        exact absurd rfl this.2.2

/-- C10 witness: on a concrete header map, a non-listed header does not
pass the filter and an allow-listed header with an empty value is
dropped, while an allow-listed truthy header passes. -/
theorem filter_headers_spec_witness :
    dget (filter_headers [("X-Powered-By", "1")] PROXY_RESPONSE_HEADERS)
        "X-Powered-By" = none ∧
    dget (filter_headers [("ETag", "")] PROXY_RESPONSE_HEADERS)
        "ETag" = none ∧
    dget (filter_headers [("ETag", "v1")] PROXY_RESPONSE_HEADERS)
        "ETag" = some "v1" :=
  ⟨filter_headers_spec.2.1 [("X-Powered-By", "1")] PROXY_RESPONSE_HEADERS
      "X-Powered-By" (by decide),
   filter_headers_spec.2.2 [("ETag", "")] PROXY_RESPONSE_HEADERS
      "ETag" (by decide),
   (filter_headers_spec.1 [("ETag", "v1")] PROXY_RESPONSE_HEADERS
      "ETag" "v1").mpr ⟨by decide, by decide, by decide⟩⟩

/-! ## The Cache-Control policy (claim C3) -/

/-- C3: the outbound Cache-Control computation is a pure lookup in
`CACHE_MAX_AGES`: `text/html` yields `max-age=300`, every other listed
content type yields `max-age=31536000`, and every content type absent
from the table yields `no-cache`. -/
theorem cache_control_header_spec :
    cache_control_header "text/html" = "max-age=300" ∧
    (∀ p, p ∈ CACHE_MAX_AGES → p.1 ≠ "text/html" →
      cache_control_header p.1 = "max-age=31536000") ∧
    (∀ ct, dget CACHE_MAX_AGES ct = none →
      cache_control_header ct = "no-cache") := by
  refine ⟨by decide, by decide, ?_⟩
  intro ct h
  unfold cache_control_header
  rw [h]

/-- C3 witness: the policy evaluated at a listed long-lived type, at
`text/html`, and at a type absent from the table. -/
theorem cache_control_header_spec_witness :
    cache_control_header "text/html" = "max-age=300" ∧
    cache_control_header "image/png" = "max-age=31536000" ∧
    cache_control_header "application/pdf" = "no-cache" :=
  ⟨cache_control_header_spec.1,
   cache_control_header_spec.2.1 ("image/png", A_YEAR) (by decide)
     (by decide),
   cache_control_header_spec.2.2 "application/pdf" (by decide)⟩

/-! ## Path normalization (claim C4 support) -/

theorem quote_append (a b : String) :
    quote (a ++ b) = quote a ++ quote b := by
  apply String.ext
  simp [quote, utf8, String.data_append]

theorem quote_index_html : quote "index.html" = "index.html" := by decide

theorem endsWithSlash_append_index (p : String) :
    endsWithSlash (p ++ "index.html") = false := by
  simp [endsWithSlash, String.data_append]

theorem append_index_ne_empty (p : String) : p ++ "index.html" ≠ "" := by
  intro h
  have hd : (p ++ "index.html").data = [] := by rw [h]
  rw [String.data_append] at hd
  exact absurd (List.append_eq_nil.mp hd).2 (by decide)

theorem normalize_of_needs_index (p : String)
    (h : p = "" ∨ endsWithSlash p = true) :
    normalize_resource_path p = quote (p ++ "index.html") := by
  unfold normalize_resource_path
  rcases h with h | h
  · subst h; simp
  · simp [h]

theorem normalize_of_plain (p : String) (h1 : p ≠ "")
    (h2 : endsWithSlash p = false) :
    normalize_resource_path p = quote p := by
  unfold normalize_resource_path
  simp [h1, h2]

/-- C4 (amended): the normalization appends `index.html` to every empty
or trailing-slash resource path and then percent-encodes; the object key
for a host with path `/site` and an empty resource path is
`/site/index.html`; and normalization is idempotent on every resource
path that percent-encoding leaves unchanged. -/
theorem resource_path_normalization :
    (∀ p, p = "" ∨ endsWithSlash p = true →
      normalize_resource_path p = quote (p ++ "index.html")) ∧
    (∀ p, p ≠ "" → endsWithSlash p = false →
      normalize_resource_path p = quote p) ∧
    object_key "/site" (normalize_resource_path "") = "/site/index.html" ∧
    (∀ p, quote p = p →
      normalize_resource_path (normalize_resource_path p) =
        normalize_resource_path p) := by
  refine ⟨normalize_of_needs_index, normalize_of_plain, by decide, ?_⟩
  intro p hq
  by_cases h : p = "" ∨ endsWithSlash p = true
  · rw [normalize_of_needs_index p h]
    have hqq : quote (p ++ "index.html") = p ++ "index.html" := by
      rw [quote_append, hq, quote_index_html]
    rw [hqq,
      normalize_of_plain (p ++ "index.html") (append_index_ne_empty p)
        (endsWithSlash_append_index p)]
    exact hqq
  · push_neg at h
    obtain ⟨h1, h2⟩ := h
    have h2f : endsWithSlash p = false := by simpa using h2
    rw [normalize_of_plain p h1 h2f, hq, normalize_of_plain p h1 h2f, hq]

/-- C4 counterexample: normalization is not idempotent as claimed — a
resource path containing a space percent-encodes to `a%20b`, and a
second application re-encodes the percent sign to `a%2520b`. -/
theorem normalize_not_idempotent :
    normalize_resource_path (normalize_resource_path "a b") ≠
      normalize_resource_path "a b" := by decide

/-- C4 witness: the amended normalization facts evaluated on concrete
paths — a trailing-slash path, a plain path, the `/site` object key, and
idempotence on an encoding-invariant path. -/
theorem resource_path_normalization_witness :
    normalize_resource_path "site/" = quote ("site/" ++ "index.html") ∧
    normalize_resource_path "img.png" = quote "img.png" ∧
    object_key "/site" (normalize_resource_path "") = "/site/index.html" ∧
    normalize_resource_path (normalize_resource_path "css/app.css") =
      normalize_resource_path "css/app.css" :=
  ⟨resource_path_normalization.1 "site/" (Or.inr (by decide)),
   resource_path_normalization.2.1 "img.png" (by decide) (by decide),
   resource_path_normalization.2.2.1,
   resource_path_normalization.2.2.2 "css/app.css" (by decide)⟩

/-! ## The signer (claims C5 and C6) -/

theorem lstripSlash_slash_append (p : String) :
    lstripSlash ("/" ++ p) = lstripSlash p := by
  simp [lstripSlash, String.data_append]

theorem to_sign_string_slash (bucket p amzDate method : String) :
    to_sign_string bucket ("/" ++ p) amzDate method =
      to_sign_string bucket p amzDate method := by
  unfold to_sign_string
  rw [lstripSlash_slash_append]

theorem to_sign_string_eq_spec (bucket path amzDate method : String) :
    to_sign_string bucket path amzDate method =
      specCanonicalString bucket path method amzDate := by
  have hsplit : ("\n\n\n\nx-amz-date:" : String) =
      "\n\n\n\n" ++ "x-amz-date:" := by decide
  unfold to_sign_string specCanonicalString
  rw [hsplit]
  apply String.ext
  simp [String.data_append, List.append_assoc]

/-- C5: `generate_signature` computes the canonical string
`METHOD\n\n\n\nx-amz-date:TIMESTAMP\n/BUCKET/OBJECTKEY` — the object key
stripped of leading slashes, the Content-MD5, Content-Type and query
lines left empty — takes the HMAC of that string under the storage
secret key with the SHA-1 digest, and returns the base64 encoding of the
digest. -/
theorem generate_signature_spec
    (awsSecret bucket path amzDate method : String) :
    generate_signature awsSecret bucket path amzDate method =
      b64encode (hmacSha1 (utf8 awsSecret)
        (utf8 (specCanonicalString bucket path method amzDate))) := by
  unfold generate_signature
  rw [to_sign_string_eq_spec]

set_option maxRecDepth 4096 in
/-- The SHA-1 embedding reproduces the standard test digest of `abc`
(FIPS 180 example), confirming the compression, schedule and padding. -/
theorem sha1_abc_vector :
    sha1 (utf8 "abc") =
      [169, 153, 62, 54, 71, 6, 129, 106, 186, 62, 37, 113, 120, 80, 194,
       108, 156, 208, 216, 157] := by decide

/-- C6 counterexample: sensitivity fails — the object keys `k` and `/k`
differ, yet both sign to the same signature, because the canonical
string strips leading slashes from the key. -/
theorem generate_signature_not_sensitive :
    ("k" : String) ≠ "/k" ∧
    generate_signature "topsecret" "bucket" "k"
        "Tue, 01-Jan-2019 00:00:00 GMT" "GET" =
      generate_signature "topsecret" "bucket" "/k"
        "Tue, 01-Jan-2019 00:00:00 GMT" "GET" := by
  refine ⟨by decide, ?_⟩
  unfold generate_signature
  have h : to_sign_string "bucket" "k" "Tue, 01-Jan-2019 00:00:00 GMT"
        "GET" =
      to_sign_string "bucket" "/k" "Tue, 01-Jan-2019 00:00:00 GMT"
        "GET" := by decide
  rw [h]

/-- C6 (amended): `generate_signature` is deterministic — the same
(bucket, key, method, timestamp) always signs to the identical
signature — but it is not sensitive to every input change: object keys
that differ only by leading slashes are stripped to the same canonical
path and sign identically. -/
theorem generate_signature_deterministic
    (awsSecret bucket path amzDate method : String) :
    generate_signature awsSecret bucket path amzDate method =
        generate_signature awsSecret bucket path amzDate method ∧
      generate_signature awsSecret bucket ("/" ++ path) amzDate method =
        generate_signature awsSecret bucket path amzDate method := by
  refine ⟨rfl, ?_⟩
  unfold generate_signature
  rw [to_sign_string_slash]

/-! ## The host-config cache (claims C7 and C8) -/

theorem redisGet_redisSet_fresh (cache : Cache) (hostname : String)
    (cfg : HostConfig) (ttl now t : Nat) (h : t < now + ttl) :
    redisGet (redisSet cache hostname cfg ttl now) hostname t =
      some cfg := by
  unfold redisGet redisSet
  rw [dget_dset_self]
  simp [h]

theorem redisGet_redisSet_expired (cache : Cache) (hostname : String)
    (cfg : HostConfig) (ttl now t : Nat) (h : now + ttl ≤ t) :
    redisGet (redisSet cache hostname cfg ttl now) hostname t = none := by
  unfold redisGet redisSet
  rw [dget_dset_self]
  simp [Nat.not_lt.mpr h]

/-- C7: on a cache miss where the Franklin API answers non-200,
`resolve_host_config` returns the sentinel config
`{path: null, custom_404: true}` and stores it under the hostname with
expiry `now + HOST_CACHE_TTL`; a second resolve of the same hostname
before that expiry reads the sentinel from the cache and makes no API
call. -/
theorem resolve_host_config_negative_caching
    (api : String → ApiResponse) (cache : Cache) (hostname : String)
    (now t : Nat) (hmiss : redisGet cache hostname now = none)
    (hapi : (api hostname).status ≠ 200) (ht : t < now + HOST_CACHE_TTL) :
    resolve_host_config api cache hostname now =
      ⟨baseConfig, redisSet cache hostname baseConfig HOST_CACHE_TTL now,
       true⟩ ∧
    dget (redisSet cache hostname baseConfig HOST_CACHE_TTL now)
        hostname = some (baseConfig, now + HOST_CACHE_TTL) ∧
    resolve_host_config api
        (redisSet cache hostname baseConfig HOST_CACHE_TTL now) hostname
        t =
      ⟨baseConfig, redisSet cache hostname baseConfig HOST_CACHE_TTL now,
       false⟩ := by
  have hb : ((api hostname).status == 200) = false := by simpa using hapi
  refine ⟨?_, ?_, ?_⟩
  · unfold resolve_host_config
    rw [hmiss]
    simp [hb]
  · exact dget_dset_self cache hostname (baseConfig, now + HOST_CACHE_TTL)
  · unfold resolve_host_config
    rw [redisGet_redisSet_fresh cache hostname baseConfig HOST_CACHE_TTL
      now t ht]

/-- C7 witness: a miss for an unknown host against an API answering 404
at time 0, then a second resolve at time 119, before the 120-second
expiry. -/
theorem resolve_host_config_negative_caching_witness :
    resolve_host_config (fun _ => ⟨404, []⟩) [] "nosuch.example" 0 =
      ⟨baseConfig,
       redisSet [] "nosuch.example" baseConfig HOST_CACHE_TTL 0, true⟩ ∧
    dget (redisSet [] "nosuch.example" baseConfig HOST_CACHE_TTL 0)
        "nosuch.example" = some (baseConfig, 0 + HOST_CACHE_TTL) ∧
    resolve_host_config (fun _ => ⟨404, []⟩)
        (redisSet [] "nosuch.example" baseConfig HOST_CACHE_TTL 0)
        "nosuch.example" 119 =
      ⟨baseConfig,
       redisSet [] "nosuch.example" baseConfig HOST_CACHE_TTL 0, false⟩ :=
  resolve_host_config_negative_caching (fun _ => ⟨404, []⟩) []
    "nosuch.example" 0 119 rfl (by decide) (by decide)

/-- C8: a cache entry inserted at time `T` with TTL 120 is expired for
every resolve at time ≥ `T + 120` — a fresh resolver call is made — and
for every resolve strictly before `T + 120` the stored config is
returned from the cache with no resolver call. -/
theorem host_cache_ttl_expiry
    (api : String → ApiResponse) (cache : Cache) (hostname : String)
    (cfg : HostConfig) (T t : Nat) :
    (T + 120 ≤ t →
      (resolve_host_config api (redisSet cache hostname cfg 120 T)
          hostname t).apiCalled = true) ∧
    (t < T + 120 →
      resolve_host_config api (redisSet cache hostname cfg 120 T)
          hostname t =
        ⟨cfg, redisSet cache hostname cfg 120 T, false⟩) := by
  constructor
  · intro h
    unfold resolve_host_config
    rw [redisGet_redisSet_expired cache hostname cfg 120 T t h]
  · intro h
    unfold resolve_host_config
    rw [redisGet_redisSet_fresh cache hostname cfg 120 T t h]

/-- C8 witness: an entry inserted at time 0 with TTL 120 is refreshed by
a resolve at time 120 and served from the cache at time 119. -/
theorem host_cache_ttl_expiry_witness :
    (resolve_host_config (fun _ => ⟨404, []⟩)
        (redisSet [] "h.example" baseConfig 120 0) "h.example"
        120).apiCalled = true ∧
    resolve_host_config (fun _ => ⟨404, []⟩)
        (redisSet [] "h.example" baseConfig 120 0) "h.example" 119 =
      ⟨baseConfig, redisSet [] "h.example" baseConfig 120 0, false⟩ :=
  ⟨(host_cache_ttl_expiry (fun _ => ⟨404, []⟩) [] "h.example" baseConfig
      0 120).1 (by decide),
   (host_cache_ttl_expiry (fun _ => ⟨404, []⟩) [] "h.example" baseConfig
      0 119).2 (by decide)⟩

/-! ## The request handler (claims C1, C2, C9) -/

theorem redisGet_mem (cache : Cache) (hostname : String) (now : Nat)
    (cfg : HostConfig) (h : redisGet cache hostname now = some cfg) :
    ∃ exp, (hostname, (cfg, exp)) ∈ cache := by
  unfold redisGet at h
  cases hd : dget cache hostname with
  | none => rw [hd] at h; exact absurd h (by simp)
  | some p =>
      obtain ⟨c2, exp⟩ := p
      rw [hd] at h
      by_cases hlt : now < exp
      · simp [hlt] at h
        subst h
        exact ⟨exp, dget_mem cache hostname (c2, exp) hd⟩
      · simp [hlt] at h

theorem resolve_preserves_path_key
    (api : String → ApiResponse) (cache : Cache) (hostname : String)
    (now : Nat)
    (hcache : ∀ e ∈ cache, (dget e.2.1 "path").isSome) :
    (dget (resolve_host_config api cache hostname now).config
      "path").isSome := by
  have hbase : (dget baseConfig "path").isSome := by decide
  cases hg : redisGet cache hostname now with
  | some cfg =>
      obtain ⟨exp, hmem⟩ := redisGet_mem cache hostname now cfg hg
      have hc := hcache (hostname, (cfg, exp)) hmem
      unfold resolve_host_config
      rw [hg]
      exact hc
  | none =>
      cases hs : (api hostname).status == 200 with
      | true =>
          simp only [resolve_host_config, hg, hs, if_true]
          exact dget_dupdate_isSome baseConfig (api hostname).data "path"
            hbase
      | false =>
          simp only [resolve_host_config, hg, hs, if_false]
          exact hbase

/-- C1: every config produced by `resolve_host_config` carries a `path`
key (so "absent path" cannot occur for a resolved config), and whenever
the resolved config's path value is falsy — the "host unknown" sentinel
— `request_handler` returns the fixed host-not-found page as a
`text/html` 404 and issues no storage fetch (and no cache update). -/
theorem request_handler_host_unknown :
    (∀ (api : String → ApiResponse) (cache : Cache) (hostname : String)
        (now : Nat),
      (∀ e ∈ cache, (dget e.2.1 "path").isSome) →
      (dget (resolve_host_config api cache hostname now).config
        "path").isSome) ∧
    (∀ (oracle : S3Oracle) (awsKey awsSecret bucket nowStr
        hostNotFoundPage fileNotFoundPage hostname : String)
        (cfg : HostConfig) (resource_path : String) (reqHeaders : Headers)
        (v : JVal),
      dget cfg "path" = some v → v.truthy = false →
      request_handler oracle awsKey awsSecret bucket nowStr
          hostNotFoundPage fileNotFoundPage hostname cfg resource_path
          reqHeaders =
        ⟨.ok ⟨404, "text/html", DEFAULT_RESPONSE_HEADERS,
              hostNotFoundPage⟩,
         [], none⟩) := by
  refine ⟨resolve_preserves_path_key, ?_⟩
  intro oracle awsKey awsSecret bucket nowStr hnf fnf hostname cfg rp
    reqHeaders v hp hv
  simp only [request_handler, hp, hv]
  simp

/-- C1 witness: resolving an unknown host against a 404-answering API
yields a config with a `path` key, and the handler on the sentinel
config returns the host-not-found 404 with no fetch and no update. -/
theorem request_handler_host_unknown_witness :
    (dget (resolve_host_config (fun _ => ⟨404, []⟩) [] "nosuch.example"
        0).config "path").isSome ∧
    request_handler (fun _ _ => ⟨200, [], ""⟩) "AK" "SK" "bkt" "now"
        "HOSTNOTFOUND" "FILENOTFOUND" "nosuch.example" baseConfig "" [] =
      ⟨.ok ⟨404, "text/html", DEFAULT_RESPONSE_HEADERS, "HOSTNOTFOUND"⟩,
       [], none⟩ :=
  ⟨request_handler_host_unknown.1 (fun _ => ⟨404, []⟩) [] "nosuch.example"
      0 (by simp),
   request_handler_host_unknown.2 (fun _ _ => ⟨200, [], ""⟩) "AK" "SK"
      "bkt" "now" "HOSTNOTFOUND" "FILENOTFOUND" "nosuch.example"
      baseConfig "" [] JVal.null rfl rfl⟩

/-- C2: `handle_404` probes the object `<config path>/404.html` exactly
when the config's `custom_404` flag is truthy (defaulting to true when
the key is absent): a 200 probe returns the probe body as a `text/html`
404 and records `custom_404 = true`; any other probe status records
`custom_404 = false` and returns the fixed default page; with the flag
falsy the default page is returned with no probe fetch; and in
`request_handler`'s non-200, non-304 branch the possibly-mutated config
is persisted back under the hostname — which `update_host_config`
stores with the given TTL. -/
theorem handle_404_spec :
    (∀ (oracle : S3Oracle) (awsKey awsSecret bucket nowStr defaultPage :
        String) (cfg : HostConfig),
      tryCustom404 cfg = false →
      handle_404 oracle awsKey awsSecret bucket nowStr defaultPage cfg =
        .ok ⟨⟨404, "text/html", DEFAULT_RESPONSE_HEADERS, defaultPage⟩,
             cfg, []⟩) ∧
    (∀ (oracle : S3Oracle) (awsKey awsSecret bucket nowStr defaultPage :
        String) (cfg : HostConfig) (pv : JVal)
        (fr : S3Resource × FetchCall),
      tryCustom404 cfg = true → dget cfg "path" = some pv →
      fr = fetch_s3 oracle awsKey awsSecret bucket
          (pv.format ++ "/404.html") [] true nowStr →
      fr.2.path = pv.format ++ "/404.html" ∧
      (fr.1.status = 200 →
        handle_404 oracle awsKey awsSecret bucket nowStr defaultPage
            cfg =
          .ok ⟨⟨404, "text/html", DEFAULT_RESPONSE_HEADERS, fr.1.data⟩,
               dset cfg "custom_404" (JVal.bool true), [fr.2]⟩) ∧
      (fr.1.status ≠ 200 →
        handle_404 oracle awsKey awsSecret bucket nowStr defaultPage
            cfg =
          .ok ⟨⟨404, "text/html", DEFAULT_RESPONSE_HEADERS, defaultPage⟩,
               dset cfg "custom_404" (JVal.bool false), [fr.2]⟩)) ∧
    (∀ (oracle : S3Oracle) (awsKey awsSecret bucket nowStr
        hostNotFoundPage fileNotFoundPage hostname : String)
        (cfg : HostConfig) (rp : String) (reqHeaders : Headers)
        (pv : JVal) (fr : S3Resource × FetchCall) (nf : NotFoundResult),
      dget cfg "path" = some pv → pv.truthy = true →
      fr = fetch_s3 oracle awsKey awsSecret bucket
          (pv.format ++ "/" ++ lstripSlash (normalize_resource_path rp))
          (filter_headers reqHeaders PROXY_REQUEST_HEADERS) true
          nowStr →
      fr.1.status ≠ 304 → fr.1.status ≠ 200 →
      handle_404 oracle awsKey awsSecret bucket nowStr fileNotFoundPage
          cfg = .ok nf →
      request_handler oracle awsKey awsSecret bucket nowStr
          hostNotFoundPage fileNotFoundPage hostname cfg rp reqHeaders =
        ⟨.ok nf.response, fr.2 :: nf.fetches,
         some (hostname, nf.config)⟩) ∧
    (∀ (cache : Cache) (hostname : String) (cfg : HostConfig)
        (now : Nat),
      dget (update_host_config cache hostname cfg HOST_CACHE_TTL now)
          hostname = some (cfg, now + HOST_CACHE_TTL)) := by
  refine ⟨?_, ?_, ?_, ?_⟩
  · intro oracle k s b nowStr dp cfg h
    simp [handle_404, h]
  · intro oracle k s b nowStr dp cfg pv fr htry hpath hfr
    refine ⟨by subst hfr; rfl, ?_, ?_⟩
    · intro h200
      have hb : (fr.1.status == 200) = true := by simp [h200]
      simp only [handle_404, htry, hpath, if_true]
      rw [← hfr]
      simp [hb]
    · intro hne
      have hb : (fr.1.status == 200) = false := by simp [hne]
      simp only [handle_404, htry, hpath, if_true]
      rw [← hfr]
      simp [hb]
  · intro oracle k s b nowStr hnf fnf hostname cfg rp reqH pv fr nf
      hpath hv hfr h304 h200 hnf4
    have hb304 : (fr.1.status == 304) = false := by simp [h304]
    have hb200 : (fr.1.status != 200) = true := by simp [h200]
    simp only [request_handler, hpath, hv]
    rw [← hfr]
    simp [hb304, hb200, hnf4]
  · intro cache hostname cfg now
    exact dget_dset_self cache hostname (cfg, now + HOST_CACHE_TTL)

/-- C2 witness: with `custom_404` false the default page is returned
with no probe; with the flag absent and a 404-answering origin the
probe targets `/proj/404.html`, the default page is returned and
`custom_404` is recorded false; the handler's 404 branch persists that
config under the hostname; and `update_host_config` stores it. -/
theorem handle_404_spec_witness :
    handle_404 (fun _ _ => ⟨404, [], ""⟩) "AK" "SK" "bkt" "now" "FNF"
        [("path", JVal.str "/proj"), ("custom_404", JVal.bool false)] =
      .ok ⟨⟨404, "text/html", DEFAULT_RESPONSE_HEADERS, "FNF"⟩,
           [("path", JVal.str "/proj"), ("custom_404", JVal.bool false)],
           []⟩ ∧
    (fetch_s3 (fun _ _ => ⟨404, [], ""⟩) "AK" "SK" "bkt" "/proj/404.html"
        [] true "now").2.path = "/proj/404.html" ∧
    handle_404 (fun _ _ => ⟨404, [], ""⟩) "AK" "SK" "bkt" "now" "FNF"
        [("path", JVal.str "/proj")] =
      .ok ⟨⟨404, "text/html", DEFAULT_RESPONSE_HEADERS, "FNF"⟩,
           dset [("path", JVal.str "/proj")] "custom_404"
             (JVal.bool false),
           [(fetch_s3 (fun _ _ => ⟨404, [], ""⟩) "AK" "SK" "bkt"
               "/proj/404.html" [] true "now").2]⟩ ∧
    request_handler (fun _ _ => ⟨404, [], ""⟩) "AK" "SK" "bkt" "now"
        "HNF" "FNF" "example.com" [("path", JVal.str "/proj")]
        "missing.html" [] =
      ⟨.ok ⟨404, "text/html", DEFAULT_RESPONSE_HEADERS, "FNF"⟩,
       (fetch_s3 (fun _ _ => ⟨404, [], ""⟩) "AK" "SK" "bkt"
           "/proj/missing.html"
           (filter_headers [] PROXY_REQUEST_HEADERS) true "now").2 ::
         [(fetch_s3 (fun _ _ => ⟨404, [], ""⟩) "AK" "SK" "bkt"
             "/proj/404.html" [] true "now").2],
       some ("example.com",
         dset [("path", JVal.str "/proj")] "custom_404"
           (JVal.bool false))⟩ ∧
    dget (update_host_config [] "example.com"
        (dset [("path", JVal.str "/proj")] "custom_404"
          (JVal.bool false)) HOST_CACHE_TTL 0) "example.com" =
      some (dset [("path", JVal.str "/proj")] "custom_404"
        (JVal.bool false), 0 + HOST_CACHE_TTL) := by
  have probe := handle_404_spec.2.1 (fun _ _ => ⟨404, [], ""⟩) "AK" "SK"
    "bkt" "now" "FNF" [("path", JVal.str "/proj")] (JVal.str "/proj")
    (fetch_s3 (fun _ _ => ⟨404, [], ""⟩) "AK" "SK" "bkt" "/proj/404.html"
      [] true "now") rfl rfl rfl
  refine ⟨handle_404_spec.1 (fun _ _ => ⟨404, [], ""⟩) "AK" "SK" "bkt"
      "now" "FNF"
      [("path", JVal.str "/proj"), ("custom_404", JVal.bool false)] rfl,
    probe.1, probe.2.2 (by decide), ?_, ?_⟩
  · exact handle_404_spec.2.2.1 (fun _ _ => ⟨404, [], ""⟩) "AK" "SK"
      "bkt" "now" "HNF" "FNF" "example.com" [("path", JVal.str "/proj")]
      "missing.html" [] (JVal.str "/proj")
      (fetch_s3 (fun _ _ => ⟨404, [], ""⟩) "AK" "SK" "bkt"
        "/proj/missing.html" (filter_headers [] PROXY_REQUEST_HEADERS)
        true "now")
      ⟨⟨404, "text/html", DEFAULT_RESPONSE_HEADERS, "FNF"⟩,
       dset [("path", JVal.str "/proj")] "custom_404" (JVal.bool false),
       [(fetch_s3 (fun _ _ => ⟨404, [], ""⟩) "AK" "SK" "bkt"
           "/proj/404.html" [] true "now").2]⟩
      rfl rfl (by simp [normalize_resource_path]; rfl) (by decide)
      (by decide) rfl
  · exact handle_404_spec.2.2.2 [] "example.com"
      (dset [("path", JVal.str "/proj")] "custom_404" (JVal.bool false))
      0

/-- C9: in `request_handler`'s 200 branch the storage response's
Content-Type header is indexed unconditionally: a 200 storage response
without a Content-Type header makes the handler raise a KeyError
instead of returning a response, and with the header present the branch
returns the composed 200 response. -/
theorem request_handler_content_type :
    ∀ (oracle : S3Oracle) (awsKey awsSecret bucket nowStr
        hostNotFoundPage fileNotFoundPage hostname : String)
        (cfg : HostConfig) (rp : String) (reqHeaders : Headers)
        (pv : JVal) (fr : S3Resource × FetchCall),
      dget cfg "path" = some pv → pv.truthy = true →
      fr = fetch_s3 oracle awsKey awsSecret bucket
          (pv.format ++ "/" ++ lstripSlash (normalize_resource_path rp))
          (filter_headers reqHeaders PROXY_REQUEST_HEADERS) true
          nowStr →
      fr.1.status = 200 →
      (dget fr.1.headers "Content-Type" = none →
        (request_handler oracle awsKey awsSecret bucket nowStr
            hostNotFoundPage fileNotFoundPage hostname cfg rp
            reqHeaders).response =
          .error (.keyError "Content-Type")) ∧
      (∀ ct, dget fr.1.headers "Content-Type" = some ct →
        (request_handler oracle awsKey awsSecret bucket nowStr
            hostNotFoundPage fileNotFoundPage hostname cfg rp
            reqHeaders).response =
          .ok ⟨200, ct,
               dset (dupdate (filter_headers fr.1.headers
                   PROXY_RESPONSE_HEADERS) DEFAULT_RESPONSE_HEADERS)
                 "Cache-Control" (cache_control_header ct),
               fr.1.data⟩) := by
  intro oracle k s b nowStr hnf fnf hostname cfg rp reqH pv fr hpath hv
    hfr h200
  have hb304 : (fr.1.status == 304) = false := by simp [h200]
  have hb200 : (fr.1.status != 200) = false := by simp [h200]
  constructor
  · intro hct
    simp only [request_handler, hpath, hv]
    rw [← hfr]
    simp [hb304, hb200, hct]
  · intro ct hct
    simp only [request_handler, hpath, hv]
    rw [← hfr]
    simp [hb304, hb200, hct]

/-- C9 witness: a 200 origin response without Content-Type makes the
handler raise the KeyError; the same response with Content-Type yields
the composed 200 response. -/
theorem request_handler_content_type_witness :
    (request_handler (fun _ _ => ⟨200, [("X-Extra", "1")], "body"⟩) "AK"
        "SK" "bkt" "now" "HNF" "FNF" "example.com"
        [("path", JVal.str "/proj")] "a" []).response =
      .error (.keyError "Content-Type") ∧
    (request_handler (fun _ _ => ⟨200, [("Content-Type", "text/html")],
        "body"⟩) "AK" "SK" "bkt" "now" "HNF" "FNF" "example.com"
        [("path", JVal.str "/proj")] "a" []).response =
      .ok ⟨200, "text/html",
           dset (dupdate (filter_headers [("Content-Type", "text/html")]
               PROXY_RESPONSE_HEADERS) DEFAULT_RESPONSE_HEADERS)
             "Cache-Control" (cache_control_header "text/html"),
           "body"⟩ :=
  ⟨(request_handler_content_type (fun _ _ => ⟨200, [("X-Extra", "1")],
        "body"⟩) "AK" "SK" "bkt" "now" "HNF" "FNF" "example.com"
      [("path", JVal.str "/proj")] "a" [] (JVal.str "/proj")
      (fetch_s3 (fun _ _ => ⟨200, [("X-Extra", "1")], "body"⟩) "AK" "SK"
        "bkt" ((JVal.str "/proj").format ++ "/" ++
          lstripSlash (normalize_resource_path "a"))
        (filter_headers [] PROXY_REQUEST_HEADERS) true "now")
      rfl rfl rfl rfl).1 rfl,
   (request_handler_content_type (fun _ _ => ⟨200,
        [("Content-Type", "text/html")], "body"⟩) "AK" "SK" "bkt" "now"
      "HNF" "FNF" "example.com" [("path", JVal.str "/proj")] "a" []
      (JVal.str "/proj")
      (fetch_s3 (fun _ _ => ⟨200, [("Content-Type", "text/html")],
          "body"⟩) "AK" "SK" "bkt" ((JVal.str "/proj").format ++ "/" ++
          lstripSlash (normalize_resource_path "a"))
        (filter_headers [] PROXY_REQUEST_HEADERS) true "now")
      rfl rfl rfl rfl).2 "text/html" rfl⟩

end Franklin
